import Mathlib

/-
  Verification development for the OpenVCS VCS abstraction core.

  Shallow embedding of the two Git providers (openvcs-git, the subprocess
  provider, and openvcs-git-libgit2, the embedded provider) together with the
  consumer-layer branch listing of Backend/src/tauri_commands.rs.  External
  effects (subprocess invocations, libgit2 library calls) are modelled by
  environment records whose fields hold the outcome of each fallible step, so
  that every provider function becomes a total Lean function of its
  environment.  Machine strings are Lean String values; the few string
  primitives the sources use (trim, split_whitespace, split_once, lines,
  starts_with, contains) are implemented over the underlying character lists
  so that all definitions reduce inside the kernel.
-/

/-! ## Core data model (openvcs-core) -/

/-- Error taxonomy of the backend contract (openvcs-core VcsError). -/
inductive VcsError where
  | notARepo : String → VcsError
  | noSuchBranch : String → VcsError
  | nothingToCommit : VcsError
  | nonFastForward : VcsError
  | unsupported : String → VcsError
  | ioError : String → VcsError
  | backend : String → String → VcsError
deriving Repr, DecidableEq

/-- Low-level error type of the embedded provider (GitError in lowlevel.rs). -/
inductive GitError where
  | notARepo : String → GitError
  | noSuchBranch : String → GitError
  | nothingToCommit : GitError
  | nonFastForward : GitError
  | libGit2 : String → GitError
  | ioError : String → GitError
deriving Repr, DecidableEq

/-- Display rendering of GitError, as derived by thiserror in lowlevel.rs
(the libGit2 and ioError variants are transparent). -/
def GitError.display : GitError → String
  | .notARepo s => "not a git repository: " ++ s
  | .noSuchBranch s => "branch not found: " ++ s
  | .nothingToCommit => "nothing to commit"
  | .nonFastForward => "non-fast-forward; merge or rebase required"
  | .libGit2 s => s
  | .ioError s => s

/-- Branch kind (openvcs-core models.rs). -/
inductive BranchKind where
  | local : BranchKind
  | remote : String → BranchKind
  | unknown : BranchKind
deriving Repr, DecidableEq

/-- Branch item (openvcs-core models.rs). -/
structure BranchItem where
  name : String
  fullRef : String
  kind : BranchKind
  current : Bool
deriving Repr, DecidableEq

/-- File status entry (openvcs-core models.rs). -/
structure FileEntry where
  path : String
  status : String
  hunks : List String
deriving Repr, DecidableEq

/-- Status payload (openvcs-core models.rs). -/
structure StatusPayload where
  files : List FileEntry
  ahead : Nat
  behind : Nat
deriving Repr, DecidableEq

/-- Commit list item (openvcs-core models.rs). -/
structure CommitItem where
  id : String
  msg : String
  meta : String
  author : String
deriving Repr, DecidableEq

/-- Log query (openvcs-core models.rs).  u32 counters become Nat. -/
structure LogQuery where
  rev : Option String := none
  path : Option String := none
  sinceUtc : Option String := none
  untilUtc : Option String := none
  authorContains : Option String := none
  skip : Nat := 0
  limit : Nat := 0
  topoOrder : Bool := false
  includeMerges : Bool := false
deriving Repr, DecidableEq

instance {ε α : Type} [DecidableEq ε] [DecidableEq α] : DecidableEq (Except ε α) := fun x y =>
  match x, y with
  | .ok a, .ok b =>
    if h : a = b then .isTrue (by rw [h]) else .isFalse (by intro hh; cases hh; exact h rfl)
  | .ok _, .error _ => .isFalse (by intro h; cases h)
  | .error _, .ok _ => .isFalse (by intro h; cases h)
  | .error e, .error f =>
    if h : e = f then .isTrue (by rw [h]) else .isFalse (by intro hh; cases hh; exact h rfl)

/-! ## String primitives, mirroring the Rust std string functions used -/

/-- ASCII whitespace test (the sources only ever trim or split ASCII output). -/
def isWs (c : Char) : Bool := c = ' ' || c = '\t' || c = '\n' || c = '\r'

/-- Rust str::trim over the character list. -/
def trimStr (s : String) : String :=
  ⟨((s.data.dropWhile isWs).reverse.dropWhile isWs).reverse⟩

/-- Rust str::trim_end over the character list. -/
def trimEndStr (s : String) : String :=
  ⟨(s.data.reverse.dropWhile isWs).reverse⟩

/-- Rust str::starts_with. -/
def strStarts (s pat : String) : Bool := pat.data.isPrefixOf s.data

/-- Rust str::strip_prefix. -/
def stripPfx (s pat : String) : Option String :=
  if pat.data.isPrefixOf s.data then some ⟨s.data.drop pat.data.length⟩ else none

/-- Helper for split_once: split a character list at the first slash. -/
def splitOnceChars (c : Char) : List Char → Option (List Char × List Char)
  | [] => none
  | x :: rest =>
    if x = c then some ([], rest)
    else match splitOnceChars c rest with
      | some (a, b) => some (x :: a, b)
      | none => none

/-- Rust str::split_once. -/
def splitOnce (s : String) (c : Char) : Option (String × String) :=
  match splitOnceChars c s.data with
  | some (a, b) => some (⟨a⟩, ⟨b⟩)
  | none => none

/-- Helper for split_whitespace: accumulate words over the character list. -/
def wordsAux : List Char → List Char → List (List Char)
  | [], acc => if acc.isEmpty then [] else [acc.reverse]
  | c :: rest, acc =>
    if isWs c then
      if acc.isEmpty then wordsAux rest [] else acc.reverse :: wordsAux rest []
    else wordsAux rest (c :: acc)

/-- Rust str::split_whitespace. -/
def splitWs (s : String) : List String := (wordsAux s.data []).map (fun l => ⟨l⟩)

/-- Helper for lines: split the character list at every newline. -/
def splitNlAux : List Char → List Char → List (List Char)
  | [], acc => [acc.reverse]
  | x :: rest, acc =>
    if x = '\n' then acc.reverse :: splitNlAux rest [] else splitNlAux rest (x :: acc)

/-- Rust str::lines: newline-separated segments, without a trailing empty
segment (the inputs in this development carry no carriage returns). -/
def linesOf (s : String) : List String :=
  let segs := (splitNlAux s.data []).map (fun l => (⟨l⟩ : String))
  if segs.getLast? = some "" then segs.dropLast else segs

/-- Substring occurrence over character lists (Rust str::contains). -/
def subAt (pat : List Char) : List Char → Bool
  | [] => pat.isEmpty
  | c :: rest => pat.isPrefixOf (c :: rest) || subAt pat rest

/-- Rust str::contains for a substring pattern. -/
def containsSub (s sub : String) : Bool := subAt sub.data s.data

/-! ## C1: fast-forward pull, both providers -/

/-- Exit of one streamed git subprocess (openvcs-git run_git_streaming): the
success flag of the ExitStatus and its Display rendering. -/
structure StreamExit where
  success : Bool
  statusStr : String
deriving Repr, DecidableEq

/-- openvcs-git run_git_streaming result mapping: non-zero exit becomes
Backend with the formatted exit status. -/
def GitSystem.runGitStreaming (r : StreamExit) : Except VcsError Unit :=
  if r.success then .ok ()
  else .error (.backend "git-system" ("git exited with " ++ r.statusStr))

/-- Argument vector of GitSystem::pull_ff_only. -/
def GitSystem.pullArgs (remote branch : String) : List String :=
  ["pull", "--ff-only", "--no-rebase", remote, branch]

/-- GitSystem::pull_ff_only: a single streamed git pull invocation; the result
depends only on the exit of that subprocess. -/
def GitSystem.pullFfOnly (r : StreamExit) : Except VcsError Unit :=
  GitSystem.runGitStreaming r

/-- Merge analysis outcome (git2 MergeAnalysis as consumed by fast_forward:
is_up_to_date, is_fast_forward, anything else). -/
inductive MergeAnalysis where
  | upToDate : MergeAnalysis
  | fastForward : MergeAnalysis
  | other : MergeAnalysis
deriving Repr, DecidableEq

/-- Environment of lowlevel.rs Git::fast_forward: the outcome of each fallible
libgit2 step, in the order the source performs them. -/
structure FfEnv where
  upstream : String
  findRemote : Except String Unit
  fetch : Except String Unit
  findTrackingRef : Except String Unit
  toAnnotated : Except String Unit
  analysis : Except String MergeAnalysis
  headName : Except String String
  trackingTarget : Option Nat
  setAndCheckout : Except String Unit

/-- lowlevel.rs Git::fast_forward: parse remote/branch, fetch, merge-analysis;
up-to-date returns Ok, fast-forward moves the ref and checks out, anything
else is GitError.nonFastForward. -/
def LL.fastForward (env : FfEnv) : Except GitError Unit :=
  match splitOnce env.upstream '/' with
  | none => .error (.libGit2 "expected remote/branch")
  | some _ =>
    match env.findRemote with
    | .error e => .error (.libGit2 e)
    | .ok _ =>
      match env.fetch with
      | .error e => .error (.libGit2 e)
      | .ok _ =>
        match env.findTrackingRef with
        | .error e => .error (.libGit2 e)
        | .ok _ =>
          match env.toAnnotated with
          | .error e => .error (.libGit2 e)
          | .ok _ =>
            match env.analysis with
            | .error e => .error (.libGit2 e)
            | .ok a =>
              if a = .upToDate then .ok ()
              else if a = .fastForward then
                match env.headName with
                | .error e => .error (.libGit2 e)
                | .ok _ =>
                  match env.trackingTarget with
                  | none => .error (.libGit2 "no target")
                  | some _ =>
                    match env.setAndCheckout with
                    | .error e => .error (.libGit2 e)
                    | .ok _ => .ok ()
              else .error .nonFastForward

/-- GitLibGit2::map_err (openvcs-git-libgit2 lib.rs): every low-level error,
whatever its kind, becomes Backend with the git-libgit2 id and the Display
text of the error. -/
def GitLibGit2.mapErr (e : GitError) : VcsError :=
  .backend "git-libgit2" e.display

/-- The Vcs-level pull_ff_only of the embedded provider: runs the low-level
fetch + merge-analysis + fast_forward protocol and, like every other wrapper
method of GitLibGit2, maps low-level errors through GitLibGit2::map_err. -/
def GitLibGit2.pullFfOnly (env : FfEnv) : Except VcsError Unit :=
  (LL.fastForward env).mapError GitLibGit2.mapErr

/-- A concrete fast-forward environment where the remote has diverged: every
libgit2 step succeeds and the merge analysis is neither up-to-date nor
fast-forward. -/
def ffEnvDiverged : FfEnv :=
  { upstream := "origin/main"
    findRemote := .ok ()
    fetch := .ok ()
    findTrackingRef := .ok ()
    toAnnotated := .ok ()
    analysis := .ok .other
    headName := .ok "refs/heads/main"
    trackingTarget := some 1
    setAndCheckout := .ok () }

/-- A failing streamed git pull exit (git pull --ff-only refusing a
non-fast-forward merge exits with status 128). -/
def pullExitNonFf : StreamExit := { success := false, statusStr := "exit status: 128" }

example : LL.fastForward ffEnvDiverged = .error .nonFastForward := by decide

/-- C1 is false as stated: on a non-fast-forward condition neither provider
returns the error kind NonFastForward at the Vcs surface.  The embedded
provider flattens the low-level GitError.nonFastForward through map_err into
Backend, and the subprocess provider maps the failing git pull exit into
Backend. -/
theorem C1_counterexample :
    GitLibGit2.pullFfOnly ffEnvDiverged
      = .error (.backend "git-libgit2" "non-fast-forward; merge or rebase required")
    ∧ GitLibGit2.pullFfOnly ffEnvDiverged ≠ .error .nonFastForward
    ∧ GitSystem.pullFfOnly pullExitNonFf
      = .error (.backend "git-system" "git exited with exit status: 128")
    ∧ GitSystem.pullFfOnly pullExitNonFf ≠ .error .nonFastForward :=
  ⟨rfl, by decide, rfl, by decide⟩

/-- C1 (amended): the low-level embedded fast_forward yields
GitError.nonFastForward exactly when the merge analysis is neither up-to-date
nor fast-forward (all prior steps having succeeded), but the Vcs surface of
both providers reports a non-fast-forward condition as Backend: the embedded
wrapper maps it through map_err, and System-Git maps any failing
git pull --ff-only exit to Backend. -/
theorem C1_pull_nonff_surfaces_backend (env : FfEnv) (r : StreamExit)
    (hs : (splitOnce env.upstream '/').isSome)
    (h1 : env.findRemote = .ok ()) (h2 : env.fetch = .ok ())
    (h3 : env.findTrackingRef = .ok ()) (h4 : env.toAnnotated = .ok ())
    (hr : r.success = false) :
    (LL.fastForward env = .error .nonFastForward ↔ env.analysis = .ok .other)
    ∧ (env.analysis = .ok .other →
        GitLibGit2.pullFfOnly env
          = .error (.backend "git-libgit2" "non-fast-forward; merge or rebase required"))
    ∧ GitSystem.pullFfOnly r
        = .error (.backend "git-system" ("git exited with " ++ r.statusStr)) := by
  obtain ⟨p, hp⟩ := Option.isSome_iff_exists.mp hs
  have hff : ∀ a, env.analysis = .ok a →
      LL.fastForward env = (if a = .upToDate then .ok () else if a = .fastForward then
        (match env.headName with
          | .error e => .error (.libGit2 e)
          | .ok _ =>
            match env.trackingTarget with
            | none => .error (.libGit2 "no target")
            | some _ =>
              match env.setAndCheckout with
              | .error e => .error (.libGit2 e)
              | .ok _ => .ok ()) else .error .nonFastForward) := by
    intro a ha
    simp only [LL.fastForward, hp, h1, h2, h3, h4, ha]
  refine ⟨?_, ?_, ?_⟩
  · cases ha : env.analysis with
    | error e =>
      simp only [LL.fastForward, hp, h1, h2, h3, h4, ha]
      simp
    | ok a =>
      rw [hff a ha]
      cases a with
      | upToDate => simp
      | fastForward =>
        simp only [reduceIte]
        cases env.headName with
        | error e => simp
        | ok _ =>
          cases env.trackingTarget with
          | none => simp
          | some _ =>
            cases env.setAndCheckout with
            | error e => simp
            | ok _ => simp
      | other => simp
  · intro hA
    have : LL.fastForward env = .error .nonFastForward := by
      rw [hff .other hA]; rfl
    rw [GitLibGit2.pullFfOnly, this]; rfl
  · simp [GitSystem.pullFfOnly, GitSystem.runGitStreaming, hr]

/-! ## C2: commit and NothingToCommit -/

/-- Environment of lowlevel.rs Git::commit: the index contents produced by the
staging phase (add_all / add_path), the entries of the HEAD tree (consulted by
the claim, not by the code), and the outcome of each later libgit2 step. -/
structure LLCommitEnv where
  staging : Except String (List (String × String))
  headTreeEntries : List (String × String)
  writeTree : Except String Unit
  signature : Except String Unit
  headIsBranch : Bool
  peelHead : Except String Unit
  writeCommit : Except String String

/-- lowlevel.rs Git::commit: stage, then fail with NothingToCommit when the
index is empty, else write the tree, build the signature from the name/email
parameters, pick parents from HEAD and write the commit. -/
def LL.commit (env : LLCommitEnv) : Except GitError String :=
  match env.staging with
  | .error e => .error (.libGit2 e)
  | .ok idx =>
    if idx.isEmpty then .error .nothingToCommit
    else
      match env.writeTree with
      | .error e => .error (.libGit2 e)
      | .ok _ =>
        match env.signature with
        | .error e => .error (.libGit2 e)
        | .ok _ =>
          match (if env.headIsBranch then env.peelHead else .ok ()) with
          | .error e => .error (.libGit2 e)
          | .ok _ =>
            match env.writeCommit with
            | .error e => .error (.libGit2 e)
            | .ok oid => .ok oid

/-- Environment of GitSystem::commit: the exit of each git subprocess the
function runs, in order (config user.name, config user.email, add,
commit, rev-parse).  A failing run_git carries the Display of the exit
status; a failing run_git_capture carries the stderr text. -/
structure SysCommitEnv where
  configName : Except String Unit
  configEmail : Except String Unit
  addResult : Except String Unit
  commitResult : Except String Unit
  revParse : Except String String

/-- GitSystem::commit: set identity config, stage, run git commit, then read
the new HEAD hash; every non-zero exit becomes Backend. -/
def GitSystem.commitE (env : SysCommitEnv) : Except VcsError String :=
  match env.configName with
  | .error st => .error (.backend "git-system" ("git exited with " ++ st))
  | .ok _ =>
    match env.configEmail with
    | .error st => .error (.backend "git-system" ("git exited with " ++ st))
    | .ok _ =>
      match env.addResult with
      | .error st => .error (.backend "git-system" ("git exited with " ++ st))
      | .ok _ =>
        match env.commitResult with
        | .error st => .error (.backend "git-system" ("git exited with " ++ st))
        | .ok _ =>
          match env.revParse with
          | .error stderr => .error (.backend "git-system" stderr)
          | .ok sha => .ok (trimStr sha)

/-- A libgit2 commit environment for a clean repository with one committed
file: after staging, the index holds exactly the entries of the HEAD tree. -/
def llEnvClean : LLCommitEnv :=
  { staging := .ok [("a.txt", "blob1")]
    headTreeEntries := [("a.txt", "blob1")]
    writeTree := .ok ()
    signature := .ok ()
    headIsBranch := true
    peelHead := .ok ()
    writeCommit := .ok "9ae1f6c0aa" }

/-- A libgit2 commit environment for an empty working tree: the index is
empty after staging. -/
def llEnvEmptyIdx : LLCommitEnv :=
  { staging := .ok []
    headTreeEntries := []
    writeTree := .ok ()
    signature := .ok ()
    headIsBranch := false
    peelHead := .ok ()
    writeCommit := .ok "deadbeef" }

/-- A System-Git commit environment for a repository with nothing to commit:
git commit exits with status 1. -/
def sysEnvNothing : SysCommitEnv :=
  { configName := .ok ()
    configEmail := .ok ()
    addResult := .ok ()
    commitResult := .error "exit status: 1"
    revParse := .ok "9ae1f6c0aa\n" }

/-- C2 is false as stated: the embedded commit succeeds (creating an empty
commit) when the staged index is non-empty but equal to the HEAD tree, and the
System-Git commit surfaces Backend, not NothingToCommit, when git commit
fails with nothing to commit. -/
theorem C2_counterexample :
    LL.commit llEnvClean = .ok "9ae1f6c0aa"
    ∧ llEnvClean.staging = .ok llEnvClean.headTreeEntries
    ∧ GitSystem.commitE sysEnvNothing
      = .error (.backend "git-system" "git exited with exit status: 1")
    ∧ GitSystem.commitE sysEnvNothing ≠ .error .nothingToCommit :=
  ⟨rfl, rfl, rfl, by decide⟩

/-- C2 (amended): the embedded low-level commit fails with NothingToCommit
exactly when the index is empty after staging (in particular in an empty
working tree), not when the index equals the HEAD tree; the System-Git
provider reports a failing git commit, including the nothing-to-commit case,
as Backend. -/
theorem C2_commit_nothing_iff_empty_index (env : LLCommitEnv) (senv : SysCommitEnv)
    (idx : List (String × String)) (st : String)
    (h : env.staging = .ok idx) (hc : senv.commitResult = .error st)
    (hcn : senv.configName = .ok ()) (hce : senv.configEmail = .ok ())
    (hca : senv.addResult = .ok ()) :
    (LL.commit env = .error .nothingToCommit ↔ idx = [])
    ∧ GitSystem.commitE senv
      = .error (.backend "git-system" ("git exited with " ++ st)) := by
  constructor
  · simp only [LL.commit, h]
    cases idx with
    | nil => simp
    | cons x xs =>
      simp only [List.isEmpty_cons, if_false, Bool.false_eq_true]
      have hend : ∀ r : Except String String,
          (match r with
            | .error e => (.error (.libGit2 e) : Except GitError String)
            | .ok oid => .ok oid) ≠ .error .nothingToCommit := by
        intro r; cases r <;> simp
      cases env.writeTree with
      | error e => simp
      | ok _ =>
        cases env.signature with
        | error e => simp
        | ok _ =>
          cases hpl : (if env.headIsBranch then env.peelHead else .ok ()) with
          | error e => simp
          | ok _ => simpa using hend env.writeCommit
  · simp only [GitSystem.commitE, hcn, hce, hca, hc]

/-- Closed instance of the amended C2 theorem: an empty index yields
NothingToCommit from the embedded low-level commit, and the System-Git commit
surfaces the failing git commit exit as Backend. -/
theorem C2_witness :
    LL.commit llEnvEmptyIdx = .error .nothingToCommit
    ∧ GitSystem.commitE sysEnvNothing
      = .error (.backend "git-system" ("git exited with " ++ "exit status: 1")) :=
  ⟨(C2_commit_nothing_iff_empty_index llEnvEmptyIdx sysEnvNothing [] "exit status: 1"
      rfl rfl rfl rfl rfl).1.mpr rfl,
   (C2_commit_nothing_iff_empty_index llEnvEmptyIdx sysEnvNothing [] "exit status: 1"
      rfl rfl rfl rfl rfl).2⟩

/-! ## C3: identity configuration effects of commit -/

/-- Repository-local identity configuration (user.name / user.email). -/
structure LocalConfig where
  userName : Option String
  userEmail : Option String
deriving Repr, DecidableEq

/-- The git invocations issued by GitSystem::commit, in order. -/
def GitSystem.commitCmds (message name email : String) (paths : List String) :
    List (List String) :=
  [["config", "user.name", name], ["config", "user.email", email]]
  ++ [if paths.isEmpty then ["add", "-A"] else "add" :: paths]
  ++ [["commit", "-m", message, "--no-edit"], ["rev-parse", "HEAD"]]

/-- The git invocations issued by GitSystem::commit_index, in order. -/
def GitSystem.commitIndexCmds (message name email : String) : List (List String) :=
  [["config", "user.name", name], ["config", "user.email", email],
   ["commit", "-m", message, "--no-edit"], ["rev-parse", "HEAD"]]

/-- The git invocations issued by GitSystem::set_identity_local. -/
def GitSystem.setIdentityLocalCmds (name email : String) : List (List String) :=
  [["config", "--local", "user.name", name], ["config", "--local", "user.email", email]]

/-- Effect of one git invocation on the repository-local identity
configuration: git config user.name v run inside a working tree writes the
repo-local config, with or without --local; the other commands issued by
these sequences leave the identity configuration unchanged. -/
def applyCmd (cfg : LocalConfig) (cmd : List String) : LocalConfig :=
  match cmd with
  | ["config", "user.name", v] => { cfg with userName := some v }
  | ["config", "user.email", v] => { cfg with userEmail := some v }
  | ["config", "--local", "user.name", v] => { cfg with userName := some v }
  | ["config", "--local", "user.email", v] => { cfg with userEmail := some v }
  | _ => cfg

/-- Run a command sequence against the repository-local identity config. -/
def runCmds (cfg : LocalConfig) (cs : List (List String)) : LocalConfig :=
  cs.foldl applyCmd cfg

theorem applyCmd_add (cfg : LocalConfig) (rest : List String) :
    applyCmd cfg ("add" :: rest) = cfg := rfl

theorem applyCmd_commit (cfg : LocalConfig) (m : String) :
    applyCmd cfg ["commit", "-m", m, "--no-edit"] = cfg := rfl

/-- A pre-existing repository-local identity. -/
def cfg0 : LocalConfig := { userName := some "Old Name", userEmail := some "old@example.com" }

/-- C3 is false as stated: GitSystem::commit overwrites the repository-local
user.name and user.email with its parameters on every call. -/
theorem C3_counterexample :
    runCmds cfg0 (GitSystem.commitCmds "msg" "A" "a@x" [])
      = { userName := some "A", userEmail := some "a@x" }
    ∧ runCmds cfg0 (GitSystem.commitCmds "msg" "A" "a@x" []) ≠ cfg0 :=
  ⟨rfl, by decide⟩

/-- C3 (amended): the System-Git provider writes user.name and user.email
into the repository-local configuration on every commit and commit_index,
exactly as set_identity_local does, so the identity config after any of the
three command sequences is the parameter pair, whatever it was before.  (The
embedded provider builds its signature from the parameters and issues no
config write.) -/
theorem C3_commit_writes_local_identity (cfg : LocalConfig) (m n e : String)
    (ps : List String) :
    runCmds cfg (GitSystem.commitCmds m n e ps)
      = { userName := some n, userEmail := some e }
    ∧ runCmds cfg (GitSystem.commitIndexCmds m n e)
      = { userName := some n, userEmail := some e }
    ∧ runCmds cfg (GitSystem.setIdentityLocalCmds n e)
      = { userName := some n, userEmail := some e } := by
  refine ⟨?_, rfl, rfl⟩
  cases hps : ps.isEmpty <;>
    simp [GitSystem.commitCmds, runCmds, hps, applyCmd_add, applyCmd_commit, applyCmd]

/-! ## C4: status letter derivation -/

/-- The libgit2 status bits consulted by status_payload. -/
structure GStatus where
  wtNew : Bool := false
  indexNew : Bool := false
  wtModified : Bool := false
  indexModified : Bool := false
  wtTypechange : Bool := false
  indexTypechange : Bool := false
  wtDeleted : Bool := false
  indexDeleted : Bool := false
  conflicted : Bool := false
  indexRenamed : Bool := false
  wtRenamed : Bool := false
deriving Repr, DecidableEq

/-- The status code assignment of lowlevel.rs Git::status_payload. -/
def LL.statusCode (s : GStatus) : String :=
  if s.conflicted then "U"
  else if s.indexDeleted || s.wtDeleted then "D"
  else if s.indexNew || s.wtNew then "A"
  else if s.indexModified || s.wtModified || s.indexTypechange || s.wtTypechange then "M"
  else "R?"

/-- One libgit2 status entry: its status bits and the candidate paths of its
head-to-index and index-to-workdir deltas. -/
structure GEntry where
  status : GStatus
  h2iNew : Option String := none
  i2wNew : Option String := none
  h2iOld : Option String := none
  i2wOld : Option String := none
deriving Repr, DecidableEq

/-- Path selection of lowlevel.rs Git::status_payload: head-to-index new
file, else index-to-workdir new file, else the old files, else empty. -/
def LL.entryPath (e : GEntry) : String :=
  ((((e.h2iNew).orElse (fun _ => e.i2wNew)).orElse (fun _ => e.h2iOld)).orElse
    (fun _ => e.i2wOld)).getD ""

/-- The file list built by lowlevel.rs Git::status_payload. -/
def LL.statusFiles (es : List GEntry) : List FileEntry :=
  es.map (fun e => { path := LL.entryPath e, status := LL.statusCode e.status, hunks := [] })

/-- Character class test of GitSystem::status_payload. -/
def GitSystem.isModChar (c : Char) : Bool := c = 'M' || c = 'T'

/-- Status code assignment of GitSystem::status_payload for an ordinary
porcelain v2 record with XY code characters x and y. -/
def GitSystem.ordinaryCode (x y : Char) : String :=
  if x = 'A' || y = 'A' then "A"
  else if x = 'D' || y = 'D' then "D"
  else if GitSystem.isModChar x || GitSystem.isModChar y then "M"
  else "M"

/-- GitSystem::status_payload per-line parsing of porcelain v2 output. -/
def GitSystem.parseStatusLine (line : String) : Option FileEntry :=
  if strStarts line "? " then
    (splitWs line).getLast?.map (fun p => { path := p, status := "A", hunks := [] })
  else if strStarts line "1 " then
    let xy := (line.data.drop 2).take 2
    let x := xy.headD ' '
    let y := (xy.drop 1).headD ' '
    (splitWs line).getLast?.map
      (fun p => { path := p, status := GitSystem.ordinaryCode x y, hunks := [] })
  else if strStarts line "2 " then
    (splitWs line).getLast?.map (fun p => { path := p, status := "R", hunks := [] })
  else if strStarts line "u " then
    (splitWs line).getLast?.map (fun p => { path := p, status := "U", hunks := [] })
  else none

/-- The file list built by GitSystem::status_payload from porcelain output. -/
def GitSystem.statusFiles (out : String) : List FileEntry :=
  (linesOf out).filterMap GitSystem.parseStatusLine

theorem LL.statusCode_mem (s : GStatus) :
    LL.statusCode s ∈ (["U", "D", "A", "M", "R?"] : List String) := by
  unfold LL.statusCode
  split_ifs <;> simp

theorem GitSystem.ordinaryCode_mem (x y : Char) :
    GitSystem.ordinaryCode x y ∈ (["A", "D", "M"] : List String) := by
  unfold GitSystem.ordinaryCode
  split_ifs <;> simp

theorem GitSystem.ordinaryCode_memFive (x y : Char) :
    GitSystem.ordinaryCode x y ∈ (["A", "M", "D", "R", "U"] : List String) := by
  unfold GitSystem.ordinaryCode
  split_ifs <;> simp

theorem GitSystem.parseStatusLine_mem (line : String) (f : FileEntry)
    (h : GitSystem.parseStatusLine line = some f) :
    f.status ∈ (["A", "M", "D", "R", "U"] : List String) := by
  unfold GitSystem.parseStatusLine at h
  split_ifs at h <;>
    first
    | cases h
    | (rw [Option.map_eq_some'] at h
       obtain ⟨p, _, hf⟩ := h
       subst hf
       first
       | exact GitSystem.ordinaryCode_memFive _ _
       | simp)

/-- A libgit2 status whose only set bit is INDEX_RENAMED, as produced for a
staged rename with rename detection enabled. -/
def renamedOnly : GStatus := { indexRenamed := true }

/-- C4 is false as stated: a rename-only entry of the embedded provider gets
the two-character code R?, which is not one of the letters A, M, D, R, U. -/
theorem C4_counterexample :
    LL.statusFiles [{ status := renamedOnly, h2iNew := some "new.txt", h2iOld := some "old.txt" }]
      = [{ path := "new.txt", status := "R?", hunks := [] }]
    ∧ "R?" ∉ (["A", "M", "D", "R", "U"] : List String) :=
  ⟨rfl, by decide⟩

/-- C4 (amended): the embedded provider assigns exactly one code from
U, D, A, M, R? with precedence conflict, deletion, addition, modification and
the two-character fallback R? for rename-only records (the path preferring the
new file of the head-to-index delta); the System-Git provider assigns exactly
one letter from A, M, D, R, U, with addition taking precedence over deletion
in ordinary records. -/
theorem C4_status_codes (s : GStatus) (es : List GEntry) (out : String) (x y : Char) :
    LL.statusCode s ∈ (["U", "D", "A", "M", "R?"] : List String)
    ∧ (s.conflicted = true → LL.statusCode s = "U")
    ∧ (s.conflicted = false → (s.indexDeleted || s.wtDeleted) = true → LL.statusCode s = "D")
    ∧ (s.conflicted = false → (s.indexDeleted || s.wtDeleted) = false →
        (s.indexNew || s.wtNew) = true → LL.statusCode s = "A")
    ∧ (∀ f ∈ LL.statusFiles es, f.status ∈ (["U", "D", "A", "M", "R?"] : List String))
    ∧ GitSystem.ordinaryCode x y ∈ (["A", "D", "M"] : List String)
    ∧ ((x = 'A' ∨ y = 'A') → GitSystem.ordinaryCode x y = "A")
    ∧ (∀ f ∈ GitSystem.statusFiles out, f.status ∈ (["A", "M", "D", "R", "U"] : List String)) := by
  refine ⟨LL.statusCode_mem s, ?_, ?_, ?_, ?_, GitSystem.ordinaryCode_mem x y, ?_, ?_⟩
  · intro h; simp [LL.statusCode, h]
  · intro h1 h2; simp [LL.statusCode, h1, h2]
  · intro h1 h2 h3; simp [LL.statusCode, h1, h2, h3]
  · intro f hf
    simp only [LL.statusFiles, List.mem_map] at hf
    obtain ⟨e, _, hf⟩ := hf
    subst hf
    exact LL.statusCode_mem e.status
  · intro h
    have hx : (x = 'A' || y = 'A') = true := by
      rcases h with h | h <;> simp [h]
    simp [GitSystem.ordinaryCode, hx]
  · intro f hf
    simp only [GitSystem.statusFiles, List.mem_filterMap] at hf
    obtain ⟨line, _, hline⟩ := hf
    exact GitSystem.parseStatusLine_mem line f hline

/-- Closed instance of the amended C4 theorem: the rename-only status code is
among the embedded codes, and an added-then-deleted ordinary record (XY = AD)
is assigned A, with addition beating deletion. -/
theorem C4_witness :
    LL.statusCode renamedOnly ∈ (["U", "D", "A", "M", "R?"] : List String)
    ∧ GitSystem.ordinaryCode 'A' 'D' = "A" :=
  ⟨(C4_status_codes renamedOnly [] "" 'A' 'D').1,
   (C4_status_codes renamedOnly [] "" 'A' 'D').2.2.2.2.2.2.1 (Or.inl rfl)⟩

/-! ## C5: log query pagination -/

/-- One commit as yielded by the embedded revwalk: the fields log_commits
reads, with the pathspec test of commit_touches_path kept as a field. -/
structure GCommit where
  oid : String
  parentCount : Nat
  timeSecs : Int
  authorName : String
  authorEmail : String
  summary : String
  timeRfc3339 : String
  touchesPath : String → Bool

/-- The filter chain of lowlevel.rs Git::log_commits in source order: merges,
date bounds (ignored when parsing fails), case-insensitive author substring,
path filter.  The date bounds are pre-parsed once through the supplied
RFC3339 parser, as the source does with parse_iso_to_epoch_secs. -/
def LL.logReject (parse : String → Option Int) (q : LogQuery) (c : GCommit) : Bool :=
  (!q.includeMerges && decide (1 < c.parentCount))
  || (match q.sinceUtc.bind parse with
      | some s => decide (c.timeSecs < s)
      | none => false)
  || (match q.untilUtc.bind parse with
      | some u => decide (u < c.timeSecs)
      | none => false)
  || (match q.authorContains with
      | some sub =>
        !(containsSub ((c.authorName ++ " <" ++ c.authorEmail ++ ">").toLower) sub.toLower)
      | none => false)
  || (match q.path with
      | some p => !(c.touchesPath p)
      | none => false)

/-- The commit DTO built by lowlevel.rs Git::log_commits. -/
def LL.mkItem (c : GCommit) : CommitItem :=
  { id := c.oid
    msg := c.summary
    meta := c.timeRfc3339 ++ " • " ++ (⟨c.oid.data.take 7⟩ : String)
    author := c.authorName ++ " <" ++ c.authorEmail ++ ">" }

/-- The walk loop of lowlevel.rs Git::log_commits: matched counts the skipped
matches, taken the emitted ones; after a push the loop breaks as soon as the
output length reaches the limit. -/
def LL.logGo (parse : String → Option Int) (q : LogQuery) :
    List GCommit → Nat → Nat → List CommitItem
  | [], _, _ => []
  | c :: rest, matched, taken =>
    if LL.logReject parse q c then LL.logGo parse q rest matched taken
    else if matched < q.skip then LL.logGo parse q rest (matched + 1) taken
    else if q.limit ≤ taken + 1 then [LL.mkItem c]
    else LL.mkItem c :: LL.logGo parse q rest matched (taken + 1)

/-- lowlevel.rs Git::log_commits over the list of commits the revwalk
yields. -/
def LL.logCommits (parse : String → Option Int) (q : LogQuery)
    (walk : List GCommit) : List CommitItem :=
  LL.logGo parse q walk 0 0

/-- The argument vector built by GitSystem::log_commits. -/
def GitSystem.logArgs (q : LogQuery) : List String :=
  ["log"]
  ++ (match q.rev with | some r => [r] | none => [])
  ++ (if q.topoOrder then ["--topo-order"] else [])
  ++ (if !q.includeMerges then ["--no-merges"] else [])
  ++ ["--date=iso-strict"]
  ++ (match q.sinceUtc with | some s => ["--since=" ++ s] | none => [])
  ++ (match q.untilUtc with | some u => ["--until=" ++ u] | none => [])
  ++ (match q.authorContains with | some a => ["--author=" ++ a] | none => [])
  ++ ["--skip=" ++ toString q.skip, "--max-count=" ++ toString q.limit]
  ++ ["--pretty=format:%H%x00%an <%ae>%x00%ad%x00%s"]
  ++ (match q.path with | some p => ["--", p] | none => [])

theorem LL.logGo_eq (parse : String → Option Int) (q : LogQuery)
    (cs : List GCommit) (m t : Nat) (hm : m ≤ q.skip) (ht : t < max 1 q.limit) :
    LL.logGo parse q cs m t
      = (((cs.filter (fun c => !LL.logReject parse q c)).drop (q.skip - m)).take
          (max 1 q.limit - t)).map LL.mkItem := by
  induction cs generalizing m t with
  | nil => simp [LL.logGo]
  | cons c rest ih =>
    cases hr : LL.logReject parse q c with
    | true => simp [LL.logGo, hr, List.filter_cons, ih m t hm ht]
    | false =>
      by_cases hm2 : m < q.skip
      · have hsm : q.skip - m = (q.skip - (m + 1)) + 1 := by omega
        simp [LL.logGo, hr, hm2, List.filter_cons, hsm, ih (m + 1) t (by omega) ht]
      · have hms : q.skip - m = 0 := by omega
        by_cases hlim : q.limit ≤ t + 1
        · have h1 : max 1 q.limit - t = 1 := by omega
          simp [LL.logGo, hr, hm2, hlim, List.filter_cons, hms, h1]
        · have h2 : max 1 q.limit - t = (max 1 q.limit - (t + 1)) + 1 := by omega
          simp [LL.logGo, hr, hm2, hlim, List.filter_cons, hms, h2,
            ih m (t + 1) hm (by omega)]

/-- A root commit as yielded by the revwalk. -/
def commitA : GCommit :=
  { oid := "aaaaaaaaaaaaaaaaaaaaaaaaaaaaaaaaaaaaaaaa"
    parentCount := 0
    timeSecs := 1700000000
    authorName := "A"
    authorEmail := "a@x"
    summary := "init"
    timeRfc3339 := "2023-11-14T22:13:20Z"
    touchesPath := fun _ => false }

/-- The log query with limit 0 (and no filters). -/
def qLimitZero : LogQuery := { limit := 0 }

/-- C5 is false as stated: with limit 0 the embedded log_commits pushes one
item before checking the break condition, so the returned length exceeds the
limit. -/
theorem C5_counterexample :
    (LL.logCommits (fun _ => none) qLimitZero [commitA]).length = 1
    ∧ ¬((LL.logCommits (fun _ => none) qLimitZero [commitA]).length ≤ qLimitZero.limit) := by
  exact ⟨rfl, by decide⟩

/-- C5 (amended): the embedded log_commits applies pagination after all
filters: it returns the filtered walk with skip entries dropped and then
max 1 limit entries taken, so its length is bounded by the limit whenever the
limit is at least 1 (with limit 0 a single passing commit is still returned);
the System-Git provider delegates pagination to git log via --skip and
--max-count arguments placed after the filter arguments. -/
theorem C5_log_pagination (parse : String → Option Int) (q : LogQuery)
    (walk : List GCommit) :
    LL.logCommits parse q walk
      = (((walk.filter (fun c => !LL.logReject parse q c)).drop q.skip).take
          (max 1 q.limit)).map LL.mkItem
    ∧ (1 ≤ q.limit → (LL.logCommits parse q walk).length ≤ q.limit)
    ∧ ("--skip=" ++ toString q.skip) ∈ GitSystem.logArgs q
    ∧ ("--max-count=" ++ toString q.limit) ∈ GitSystem.logArgs q := by
  have heq := LL.logGo_eq parse q walk 0 0 (Nat.zero_le _) (by omega)
  simp only [Nat.sub_zero] at heq
  refine ⟨heq, ?_, ?_, ?_⟩
  · intro hl
    have hlen : (LL.logCommits parse q walk).length
        = (((walk.filter (fun c => !LL.logReject parse q c)).drop q.skip).take
            (max 1 q.limit)).length := by
      rw [show LL.logCommits parse q walk = _ from heq, List.length_map]
    rw [hlen]
    calc (((walk.filter (fun c => !LL.logReject parse q c)).drop q.skip).take
            (max 1 q.limit)).length
        ≤ max 1 q.limit := List.length_take_le _ _
      _ = q.limit := Nat.max_eq_right hl
  · simp [GitSystem.logArgs]
  · simp [GitSystem.logArgs]

/-- The log query with limit 2 (and no filters). -/
def qTwo : LogQuery := { limit := 2 }

/-- Closed instance of the amended C5 theorem at the limit-2 query on a
one-commit walk. -/
theorem C5_witness :
    LL.logCommits (fun _ => none) qTwo [commitA]
      = ((([commitA].filter (fun c => !LL.logReject (fun _ => none) qTwo c)).drop
          qTwo.skip).take (max 1 qTwo.limit)).map LL.mkItem
    ∧ (LL.logCommits (fun _ => none) qTwo [commitA]).length ≤ qTwo.limit :=
  ⟨(C5_log_pagination (fun _ => none) qTwo [commitA]).1,
   (C5_log_pagination (fun _ => none) qTwo [commitA]).2.1 (by decide)⟩

/-! ## C6: best-effort ahead/behind in status_payload -/

/-- Environment of the ahead/behind block of lowlevel.rs Git::status_payload:
the branch shorthand of HEAD (none when HEAD is detached or unborn), whether
find_branch succeeds, whether the branch has an upstream, the two ref targets
and the graph_ahead_behind outcome. -/
structure ABEnv where
  headBranchName : Option String
  branchFound : Bool
  upstreamFound : Bool
  branchTarget : Option Nat
  upstreamTarget : Option Nat
  graphResult : Option (Nat × Nat)
deriving Repr, DecidableEq

/-- The best-effort ahead/behind computation of lowlevel.rs
Git::status_payload: every failure along the chain downgrades to (0, 0). -/
def LL.aheadBehind (env : ABEnv) : Nat × Nat :=
  match env.headBranchName with
  | none => (0, 0)
  | some _ =>
    if env.branchFound then
      if env.upstreamFound then
        match env.branchTarget, env.upstreamTarget with
        | some _, some _ =>
          match env.graphResult with
          | some ab => ab
          | none => (0, 0)
        | _, _ => (0, 0)
      else (0, 0)
    else (0, 0)

/-- lowlevel.rs Git::status_payload: a failing status scan errors the call;
otherwise the payload combines the scanned files with the best-effort
ahead/behind counters. -/
def LL.statusPayloadE (scan : Except String (List GEntry)) (env : ABEnv) :
    Except GitError StatusPayload :=
  match scan with
  | .error e => .error (.libGit2 e)
  | .ok es =>
    .ok { files := LL.statusFiles es
          ahead := (LL.aheadBehind env).1
          behind := (LL.aheadBehind env).2 }

/-- GitSystem::status_payload ahead/behind: parse the left-right count of the
rev-list upstream invocation, whose output is "<behind> <ahead>"; a failing
invocation, missing fields or unparsable counters give zeros. -/
def GitSystem.aheadBehind (revList : Except String String) : Nat × Nat :=
  match revList with
  | .error _ => (0, 0)
  | .ok out =>
    match splitWs out with
    | b :: a :: _ => ((a.toNat?).getD 0, (b.toNat?).getD 0)
    | _ => (0, 0)

/-- GitSystem::status_payload: a failing porcelain capture errors the call;
otherwise the payload combines the parsed files with the best-effort
ahead/behind counters. -/
def GitSystem.statusPayloadE (porcelain : Except String String)
    (revList : Except String String) : Except VcsError StatusPayload :=
  match porcelain with
  | .error stderr => .error (.backend "git-system" stderr)
  | .ok out =>
    .ok { files := GitSystem.statusFiles out
          ahead := (GitSystem.aheadBehind revList).1
          behind := (GitSystem.aheadBehind revList).2 }

/-- C6: for both providers, ahead and behind are zero whenever the current
branch has no upstream or HEAD is detached (for System-Git, whenever the
upstream rev-list invocation fails, as it does in those states), and a
successful status scan always yields a successful status call whatever the
ahead/behind computation did. -/
theorem C6_ahead_behind_zero (env : ABEnv) (es : List GEntry) (out : String)
    (revList : Except String String) :
    (env.headBranchName = none ∨ env.upstreamFound = false →
      LL.aheadBehind env = (0, 0)
      ∧ LL.statusPayloadE (.ok es) env
          = .ok { files := LL.statusFiles es, ahead := 0, behind := 0 })
    ∧ (∃ p, LL.statusPayloadE (.ok es) env = .ok p)
    ∧ (∀ e, revList = .error e →
        GitSystem.aheadBehind revList = (0, 0)
        ∧ GitSystem.statusPayloadE (.ok out) revList
            = .ok { files := GitSystem.statusFiles out, ahead := 0, behind := 0 })
    ∧ (∃ p, GitSystem.statusPayloadE (.ok out) revList = .ok p) := by
  have hz : env.headBranchName = none ∨ env.upstreamFound = false →
      LL.aheadBehind env = (0, 0) := by
    intro h
    rcases h with h | h
    · simp [LL.aheadBehind, h]
    · cases hb : env.headBranchName with
      | none => simp [LL.aheadBehind, hb]
      | some n =>
        simp only [LL.aheadBehind, hb, h]
        by_cases hf : env.branchFound <;> simp [hf]
  refine ⟨?_, ⟨_, rfl⟩, ?_, ⟨_, rfl⟩⟩
  · intro h
    refine ⟨hz h, ?_⟩
    simp [LL.statusPayloadE, hz h]
  · intro e he
    refine ⟨by simp [GitSystem.aheadBehind, he], ?_⟩
    simp [GitSystem.statusPayloadE, GitSystem.aheadBehind, he]

/-- An ahead/behind environment for a detached HEAD with no upstream. -/
def abEnvDetached : ABEnv :=
  { headBranchName := none
    branchFound := false
    upstreamFound := false
    branchTarget := none
    upstreamTarget := none
    graphResult := none }

/-- Closed instance of the C6 theorem: detached HEAD gives zeros in the
embedded provider, and a failing upstream rev-list gives zeros with a
successful status call in the System-Git provider. -/
theorem C6_witness :
    LL.aheadBehind abEnvDetached = (0, 0)
    ∧ GitSystem.statusPayloadE (.ok "")
        (.error "fatal: no upstream configured for branch")
        = .ok { files := GitSystem.statusFiles "", ahead := 0, behind := 0 } :=
  ⟨((C6_ahead_behind_zero abEnvDetached [] ""
      (.error "fatal: no upstream configured for branch")).1 (Or.inl rfl)).1,
   ((C6_ahead_behind_zero abEnvDetached [] ""
      (.error "fatal: no upstream configured for branch")).2.2.1
      "fatal: no upstream configured for branch" rfl).2⟩

/-! ## C7: diff_file three-tier policy -/

/-- Environment of GitSystem::diff_file: the captured outputs of the workdir
diff, the cached diff and the no-index diff against /dev/null, whether the
file exists on disk, and whether it is tracked.  The tracked flag is
consulted by the specification, not by the code. -/
structure SysDiffEnv where
  diffWorkdir : Except String String
  diffCached : Except String String
  fileExists : Bool
  fileTracked : Bool
  noIndexOut : String
deriving Repr, DecidableEq

/-- GitSystem::diff_file: the workdir diff if non-empty, else the cached diff
if non-empty, else, whenever the file exists on disk, the no-index diff
against /dev/null if non-empty, else no lines.  The code never checks whether
the file is untracked before the no-index fallback. -/
def GitSystem.diffFile (env : SysDiffEnv) : Except VcsError (List String) :=
  match env.diffWorkdir with
  | .error e => .error (.backend "git-system" e)
  | .ok out =>
    let s := trimEndStr out
    if s ≠ "" then .ok (linesOf s)
    else
      match env.diffCached with
      | .error e => .error (.backend "git-system" e)
      | .ok outC =>
        let sc := trimEndStr outC
        if sc ≠ "" then .ok (linesOf sc)
        else if env.fileExists then
          let sn := trimEndStr env.noIndexOut
          if sn ≠ "" then .ok (linesOf sn) else .ok []
        else .ok []

/-- The no-index diff output git produces for the one-line file a.txt. -/
def noIndexHi : String :=
  "diff --git a/dev/null b/tmp/r1/a.txt\nnew file mode 100644\n--- /dev/null\n+++ b/tmp/r1/a.txt\n@@ -0,0 +1 @@\n+hi"

/-- A tracked file a.txt with content hi, unchanged between workdir, index and
HEAD: both real diffs are empty, the file exists on disk. -/
def cleanTrackedEnv : SysDiffEnv :=
  { diffWorkdir := .ok ""
    diffCached := .ok ""
    fileExists := true
    fileTracked := true
    noIndexOut := noIndexHi }

/-- The same file when untracked: the workdir and cached diffs are empty and
the no-index fallback is the intended synthetic diff. -/
def untrackedEnv : SysDiffEnv :=
  { diffWorkdir := .ok ""
    diffCached := .ok ""
    fileExists := true
    fileTracked := false
    noIndexOut := noIndexHi }

/-- C7 evaluated at the failing input: on a clean tracked file that exists on
disk, GitSystem::diff_file returns the full-content all-additions no-index
diff instead of the empty diff the three-tier policy prescribes (the
synthetic fallback is reserved for untracked files, as the code comment
itself states); the untracked case produces the same lines, as intended. -/
theorem C7_code_eval :
    GitSystem.diffFile cleanTrackedEnv = .ok (linesOf noIndexHi)
    ∧ cleanTrackedEnv.fileTracked = true
    ∧ GitSystem.diffFile cleanTrackedEnv ≠ .ok []
    ∧ GitSystem.diffFile untrackedEnv = .ok (linesOf noIndexHi)
    ∧ linesOf noIndexHi
        = ["diff --git a/dev/null b/tmp/r1/a.txt", "new file mode 100644",
           "--- /dev/null", "+++ b/tmp/r1/a.txt", "@@ -0,0 +1 @@", "+hi"] :=
  ⟨rfl, rfl, by decide, rfl, rfl⟩

/-! ## C8: current_branch classification -/

/-- The three states of HEAD the claim distinguishes. -/
inductive HeadState where
  | onBranch : String → HeadState
  | detached : HeadState
  | unborn : HeadState
deriving Repr, DecidableEq

/-- Documented behavior of git rev-parse --abbrev-ref HEAD: prints the short
branch name when HEAD is on a born branch, prints HEAD when detached, and
exits non-zero with a fatal message when HEAD is unborn, since rev-parse
cannot resolve an unborn HEAD to a revision. -/
def gitRevParseAbbrevRefHead : HeadState → Except String String
  | .onBranch n => .ok (n ++ "\n")
  | .detached => .ok "HEAD\n"
  | .unborn =>
    .error "fatal: ambiguous argument: unknown revision or path not in the working tree."

/-- GitSystem::current_branch: capture rev-parse --abbrev-ref HEAD; a failing
capture is a Backend error; the trimmed output HEAD means detached (None);
any other output is the branch short name. -/
def GitSystem.currentBranch (st : HeadState) : Except VcsError (Option String) :=
  match gitRevParseAbbrevRefHead st with
  | .error stderr => .error (.backend "git-system" stderr)
  | .ok out =>
    let s := trimStr out
    .ok (if s = "HEAD" then none else some s)

/-- Outcome of repo.head() as consumed by lowlevel.rs Git::current_branch. -/
inductive LLHead where
  | ok : Bool → Option String → LLHead
  | errUnborn : LLHead
  | errNotFound : LLHead
  | errOther : String → LLHead
deriving Repr, DecidableEq

/-- lowlevel.rs Git::current_branch: unborn and not-found HEAD give None;
other head() failures propagate; a branch HEAD gives its shorthand; a
detached HEAD gives None. -/
def LL.currentBranch : LLHead → Except GitError (Option String)
  | .errUnborn => .ok none
  | .errNotFound => .ok none
  | .errOther e => .error (.libGit2 e)
  | .ok isBr sh => if isBr then .ok sh else .ok none

theorem trimStr_newline (s : String) : trimStr (s ++ "\n") = trimStr s := by
  have hdata : (s ++ "\n").data = s.data ++ ['\n'] := rfl
  unfold trimStr
  rw [hdata, List.dropWhile_append]
  cases h : (s.data.dropWhile isWs).isEmpty with
  | true =>
    have h2 : s.data.dropWhile isWs = [] := by simpa using h
    rw [h2]
    simp [List.dropWhile, isWs]
  | false =>
    simp only [h, if_false, Bool.false_eq_true]
    rw [List.reverse_append]
    simp [List.dropWhile, isWs]

/-- C8 is false as stated: on an unborn HEAD (fresh git init), the System-Git
current_branch propagates the failing rev-parse invocation as a Backend
error instead of returning Ok None. -/
theorem C8_counterexample :
    GitSystem.currentBranch .unborn
      = .error (.backend "git-system"
          "fatal: ambiguous argument: unknown revision or path not in the working tree.")
    ∧ GitSystem.currentBranch .unborn ≠ .ok none :=
  ⟨rfl, by decide⟩

/-- C8 (amended): the embedded provider returns Ok None on unborn and
detached HEAD and the shorthand only when HEAD is a branch; the System-Git
provider returns Ok None on detached HEAD and Ok (Some name) on a branch, but
a Backend error on an unborn HEAD, where rev-parse exits non-zero. -/
theorem C8_current_branch (n : String) (sh : Option String)
    (hn : trimStr n = n) (hne : n ≠ "HEAD") :
    LL.currentBranch .errUnborn = .ok none
    ∧ LL.currentBranch .errNotFound = .ok none
    ∧ LL.currentBranch (.ok false sh) = .ok none
    ∧ LL.currentBranch (.ok true sh) = .ok sh
    ∧ GitSystem.currentBranch .detached = .ok none
    ∧ GitSystem.currentBranch (.onBranch n) = .ok (some n)
    ∧ GitSystem.currentBranch .unborn
        = .error (.backend "git-system"
            "fatal: ambiguous argument: unknown revision or path not in the working tree.") := by
  refine ⟨rfl, rfl, rfl, rfl, rfl, ?_, rfl⟩
  simp [GitSystem.currentBranch, gitRevParseAbbrevRefHead, trimStr_newline, hn, hne]

/-- Closed instance of the amended C8 theorem on the branch main. -/
theorem C8_witness :
    GitSystem.currentBranch (.onBranch "main") = .ok (some "main")
    ∧ LL.currentBranch (.ok true (some "main")) = .ok (some "main") :=
  ⟨(C8_current_branch "main" (some "main") (by decide) (by decide)).2.2.2.2.2.1,
   (C8_current_branch "main" (some "main") (by decide) (by decide)).2.2.2.1⟩

/-! ## C10: discard_paths error swallowing -/

/-- A filesystem path as handed to the provider: its UTF-8 rendering when one
exists (PathBuf::to_str). -/
structure RPath where
  utf8 : Option String
deriving Repr, DecidableEq

/-- GitSystem::path_str: a non-UTF-8 path is an Io error. -/
def GitSystem.pathStr (p : RPath) : Except VcsError String :=
  match p.utf8 with
  | some s => .ok s
  | none => .error (.ioError "non-utf8 path")

/-- The path conversion loop of GitSystem::discard_paths: the first
non-UTF-8 path aborts the whole call through the question-mark operator. -/
def GitSystem.pathStrs : List RPath → Except VcsError (List String)
  | [] => .ok []
  | p :: rest =>
    match GitSystem.pathStr p with
    | .error e => .error e
    | .ok s =>
      match GitSystem.pathStrs rest with
      | .error e => .error e
      | .ok ss => .ok (s :: ss)

/-- Environment of GitSystem::discard_paths: the exit of the batch restore
invocation.  The per-path retries run with their results discarded, so their
outcomes do not appear. -/
structure DiscardEnv where
  batch : Except String Unit
deriving Repr, DecidableEq

/-- The argument vector of one git restore invocation. -/
def GitSystem.restoreArgs (ps : List String) : List String :=
  ["restore", "--staged", "--worktree", "--source=HEAD", "--"] ++ ps

/-- GitSystem::discard_paths with the trace of issued git invocations: an
empty path list runs nothing; a non-UTF-8 path aborts with Io before running
anything; otherwise the batch restore runs and, if it fails, one restore per
path is retried with every retry result discarded, the call returning Ok. -/
def GitSystem.discardPathsTr (env : DiscardEnv) (paths : List RPath) :
    Except VcsError Unit × List (List String) :=
  if paths.isEmpty then (.ok (), [])
  else
    match GitSystem.pathStrs paths with
    | .error e => (.error e, [])
    | .ok strs =>
      match env.batch with
      | .ok _ => (.ok (), [GitSystem.restoreArgs strs])
      | .error _ =>
        (.ok (), GitSystem.restoreArgs strs :: strs.map (fun s => GitSystem.restoreArgs [s]))

theorem GitSystem.pathStrs_ok (paths : List RPath)
    (h : ∀ p ∈ paths, p.utf8.isSome = true) :
    GitSystem.pathStrs paths = .ok (paths.map (fun p => p.utf8.getD "")) := by
  induction paths with
  | nil => rfl
  | cons p rest ih =>
    obtain ⟨s, hs⟩ := Option.isSome_iff_exists.mp (h p (by simp))
    have hrest := ih (fun x hx => h x (by simp [hx]))
    simp [GitSystem.pathStrs, GitSystem.pathStr, hs, hrest]

/-- C10 is false as stated: a non-UTF-8 path makes discard_paths return an Io
error before any git invocation runs. -/
theorem C10_counterexample :
    (GitSystem.discardPathsTr { batch := .ok () } [{ utf8 := none }]).1
      = .error (.ioError "non-utf8 path")
    ∧ (GitSystem.discardPathsTr { batch := .ok () } [{ utf8 := none }]).1 ≠ .ok () :=
  ⟨rfl, by decide⟩

/-- C10 (amended): whenever every path converts to UTF-8, discard_paths
returns Ok whatever the git invocations did; an empty path list runs no
command; and when the batch restore fails, the trace is the batch invocation
followed by one retried restore per path, every retry result discarded. -/
theorem C10_discard_swallows_failures (env : DiscardEnv) (paths : List RPath)
    (h : ∀ p ∈ paths, p.utf8.isSome = true) :
    (GitSystem.discardPathsTr env paths).1 = .ok ()
    ∧ (paths = [] → (GitSystem.discardPathsTr env paths).2 = [])
    ∧ (∀ err, paths ≠ [] → env.batch = .error err →
        (GitSystem.discardPathsTr env paths).2
          = GitSystem.restoreArgs (paths.map (fun p => p.utf8.getD ""))
            :: (paths.map (fun p => p.utf8.getD "")).map
                (fun s => GitSystem.restoreArgs [s])) := by
  by_cases hp : paths = []
  · subst hp
    exact ⟨rfl, fun _ => rfl, fun err hne _ => absurd rfl hne⟩
  · have hne : paths.isEmpty = false := by
      cases paths with
      | nil => exact absurd rfl hp
      | cons a l => rfl
    have hstrs := GitSystem.pathStrs_ok paths h
    refine ⟨?_, fun hc => absurd hc hp, ?_⟩
    · simp only [GitSystem.discardPathsTr, hne, Bool.false_eq_true, if_false, hstrs]
      cases env.batch <;> rfl
    · intro err _ hb
      simp only [GitSystem.discardPathsTr, hne, Bool.false_eq_true, if_false, hstrs, hb]

/-- Closed instance of the amended C10 theorem: with two UTF-8 paths and a
failing batch restore, the call returns Ok and the trace is the batch restore
followed by one retry per path. -/
theorem C10_witness :
    (GitSystem.discardPathsTr { batch := .error "exit status: 1" }
        [{ utf8 := some "a.txt" }, { utf8 := some "b.txt" }]).1 = .ok ()
    ∧ (GitSystem.discardPathsTr { batch := .error "exit status: 1" }
        [{ utf8 := some "a.txt" }, { utf8 := some "b.txt" }]).2
      = [GitSystem.restoreArgs ["a.txt", "b.txt"],
         GitSystem.restoreArgs ["a.txt"], GitSystem.restoreArgs ["b.txt"]] :=
  ⟨(C10_discard_swallows_failures { batch := .error "exit status: 1" }
      [{ utf8 := some "a.txt" }, { utf8 := some "b.txt" }] (by decide)).1,
   (C10_discard_swallows_failures { batch := .error "exit status: 1" }
      [{ utf8 := some "a.txt" }, { utf8 := some "b.txt" }] (by decide)).2.2
      "exit status: 1" (by decide) rfl⟩

/-! ## C9: consumer-layer branch listing (git_list_branches) -/

/-- Kind inference of git_list_branches for Unknown-kind items, from the
full_ref prefix. -/
def inferKind (fullRef : String) : BranchKind :=
  match stripPfx fullRef "refs/heads/" with
  | some _ => BranchKind.local
  | none =>
    match stripPfx fullRef "refs/remotes/" with
    | some rest =>
      match splitOnce rest '/' with
      | some (remote, _) => .remote remote
      | none => .remote "unknown"
    | none => .unknown

/-- The per-item sanitation of git_list_branches: trim name and full_ref,
drop the item when either is empty, infer the kind when Unknown, and
recompute the current flag: only a local item whose name equals the current
branch name is current. -/
def sanitizeItem (current : Option String) (it : BranchItem) : Option BranchItem :=
  let name := trimStr it.name
  let fullRef := trimStr it.fullRef
  if name = "" ∨ fullRef = "" then none
  else
    let kind := match it.kind with
      | .unknown => inferKind fullRef
      | k => k
    let cur : Bool := match kind, current with
      | BranchKind.local, some c => name == c
      | _, _ => false
    some { name := name, fullRef := fullRef, kind := kind, current := cur }

/-- The deduplication loop of git_list_branches: by full_ref, first
occurrence wins (the seen set threaded through). -/
def dedupByRef : List BranchItem → List String → List BranchItem
  | [], _ => []
  | b :: bs, seen =>
    if b.fullRef ∈ seen then dedupByRef bs seen
    else b :: dedupByRef bs (b.fullRef :: seen)

/-- The sort bucket of git_list_branches: current first, then Local, Remote,
Unknown. -/
def bucketOf (x : BranchItem) : Nat :=
  if x.current then 0
  else match x.kind with
    | BranchKind.local => 1
    | .remote _ => 2
    | .unknown => 3

/-- The sort order of git_list_branches: bucket, then name. -/
def brLe (a b : BranchItem) : Prop :=
  bucketOf a < bucketOf b ∨ (bucketOf a = bucketOf b ∧ a.name ≤ b.name)

instance : DecidableRel brLe := fun a b => by unfold brLe; infer_instance

instance : IsTotal BranchItem brLe :=
  ⟨by
    intro a b
    rcases Nat.lt_trichotomy (bucketOf a) (bucketOf b) with h | h | h
    · exact Or.inl (Or.inl h)
    · rcases le_total a.name b.name with hn | hn
      · exact Or.inl (Or.inr ⟨h, hn⟩)
      · exact Or.inr (Or.inr ⟨h.symm, hn⟩)
    · exact Or.inr (Or.inl h)⟩

instance : IsTrans BranchItem brLe :=
  ⟨by
    intro a b c hab hbc
    rcases hab with h1 | ⟨h1, hn1⟩ <;> rcases hbc with h2 | ⟨h2, hn2⟩
    · exact Or.inl (by omega)
    · exact Or.inl (by omega)
    · exact Or.inl (by omega)
    · exact Or.inr ⟨by omega, hn1.trans hn2⟩⟩

/-- The sanitized item list, before deduplication and sorting. -/
def sanitized (items : List BranchItem) (current : Option String) : List BranchItem :=
  items.filterMap (sanitizeItem current)

/-- git_list_branches over the backend item list and the current branch name:
sanitize, deduplicate by full_ref and stable-sort by bucket then name. -/
def gitListBranches (items : List BranchItem) (current : Option String) :
    List BranchItem :=
  List.insertionSort brLe (dedupByRef (sanitized items current) [])

theorem dedupByRef_mem_find (l : List BranchItem) (seen : List String)
    (b : BranchItem) (hb : b ∈ dedupByRef l seen) :
    b.fullRef ∉ seen ∧ l.find? (fun x => x.fullRef == b.fullRef) = some b := by
  induction l generalizing seen with
  | nil => cases hb
  | cons x rest ih =>
    by_cases hx : x.fullRef ∈ seen
    · rw [dedupByRef, if_pos hx] at hb
      obtain ⟨h1, h2⟩ := ih seen hb
      have hne : ¬((x.fullRef == b.fullRef) = true) := by
        simp only [beq_iff_eq]
        intro hcontra
        exact h1 (hcontra ▸ hx)
      exact ⟨h1, by
        rw [@List.find?_cons_of_neg _ (fun y : BranchItem => y.fullRef == b.fullRef) x rest hne]
        exact h2⟩
    · rw [dedupByRef, if_neg hx] at hb
      rcases List.mem_cons.mp hb with rfl | hb2
      · exact ⟨hx, by
          rw [@List.find?_cons_of_pos _ (fun y : BranchItem => y.fullRef == b.fullRef) b rest
            (by simp)]⟩
      · obtain ⟨h1, h2⟩ := ih (x.fullRef :: seen) hb2
        have hbx : b.fullRef ≠ x.fullRef := fun hh => h1 (by simp [hh])
        have hne : ¬((x.fullRef == b.fullRef) = true) := by
          simp only [beq_iff_eq]
          exact fun hh => hbx hh.symm
        exact ⟨fun hh => h1 (by simp [hh]), by
          rw [@List.find?_cons_of_neg _ (fun y : BranchItem => y.fullRef == b.fullRef) x rest hne]
          exact h2⟩

theorem dedupByRef_nodup (l : List BranchItem) (seen : List String) :
    ((dedupByRef l seen).map BranchItem.fullRef).Nodup
    ∧ ∀ f ∈ (dedupByRef l seen).map BranchItem.fullRef, f ∉ seen := by
  induction l generalizing seen with
  | nil => exact ⟨List.nodup_nil, by simp [dedupByRef]⟩
  | cons x rest ih =>
    by_cases hx : x.fullRef ∈ seen
    · rw [dedupByRef, if_pos hx]; exact ih seen
    · rw [dedupByRef, if_neg hx]
      obtain ⟨h1, h2⟩ := ih (x.fullRef :: seen)
      constructor
      · rw [List.map_cons, List.nodup_cons]
        refine ⟨fun hc => ?_, h1⟩
        have := h2 _ hc
        simp at this
      · intro f hf
        rw [List.map_cons, List.mem_cons] at hf
        rcases hf with rfl | hf
        · exact hx
        · exact fun hc => (h2 f hf) (by simp [hc])

theorem dedupByRef_complete (l : List BranchItem) :
    ∀ (seen : List String) (x : BranchItem), x ∈ l → x.fullRef ∉ seen →
      ∃ b ∈ dedupByRef l seen, b.fullRef = x.fullRef := by
  induction l with
  | nil => intro seen x hx _; cases hx
  | cons y rest ih =>
    intro seen x hx hseen
    by_cases hy : y.fullRef ∈ seen
    · rw [dedupByRef, if_pos hy]
      rcases List.mem_cons.mp hx with rfl | hx2
      · exact absurd hy hseen
      · exact ih seen x hx2 hseen
    · rw [dedupByRef, if_neg hy]
      rcases List.mem_cons.mp hx with rfl | hx2
      · exact ⟨x, by simp, rfl⟩
      · by_cases hxy : x.fullRef = y.fullRef
        · exact ⟨y, by simp, hxy.symm⟩
        · obtain ⟨b, hb1, hb2⟩ := ih (y.fullRef :: seen) x hx2
            (by rw [List.mem_cons]; push_neg; exact ⟨hxy, hseen⟩)
          exact ⟨b, by simp [hb1], hb2⟩

theorem curFlag_iff (k : BranchKind) (current : Option String) (nm : String) :
    (match k, current with
      | BranchKind.local, some c => nm == c
      | _, _ => false) = true
    ↔ (k = BranchKind.local ∧ current = some nm) := by
  cases k
  · cases current with
    | none => simp
    | some c =>
      constructor
      · intro hnc
        have hcc : nm = c := by simpa [beq_iff_eq] using hnc
        exact ⟨rfl, by rw [hcc]⟩
      · rintro ⟨-, hcn⟩
        have hcc : c = nm := by injection hcn
        simp [beq_iff_eq, hcc]
  · cases current <;> simp
  · cases current <;> simp

theorem inferKind_unknown (s : String) (h : inferKind s = .unknown) :
    stripPfx s "refs/heads/" = none ∧ stripPfx s "refs/remotes/" = none := by
  unfold inferKind at h
  cases hh : stripPfx s "refs/heads/" with
  | some r => simp [hh] at h
  | none =>
    rw [hh] at h
    cases hr : stripPfx s "refs/remotes/" with
    | some rest =>
      simp only [hr] at h
      cases hsp : splitOnce rest '/' with
      | some pr =>
        obtain ⟨r1, r2⟩ := pr
        simp [hsp] at h
      | none => simp [hsp] at h
    | none => exact ⟨rfl, rfl⟩

theorem sanitizeItem_props (current : Option String) (it b : BranchItem)
    (h : sanitizeItem current it = some b) :
    b.name ≠ "" ∧ b.fullRef ≠ ""
    ∧ (b.current = true ↔ (b.kind = BranchKind.local ∧ current = some b.name))
    ∧ (b.kind = .unknown →
        stripPfx b.fullRef "refs/heads/" = none
        ∧ stripPfx b.fullRef "refs/remotes/" = none) := by
  unfold sanitizeItem at h
  by_cases he : trimStr it.name = "" ∨ trimStr it.fullRef = ""
  · rw [if_pos he] at h; cases h
  · rw [if_neg he] at h
    push_neg at he
    injection h with h
    subst h
    refine ⟨he.1, he.2, curFlag_iff _ current _, ?_⟩
    intro hu
    cases hk : it.kind
    · rw [hk] at hu; simp at hu
    · rw [hk] at hu; simp at hu
    · rw [hk] at hu
      simp only at hu
      exact inferKind_unknown _ hu

/-- C9: git_list_branches drops empty-name or empty-ref entries, infers
Unknown kinds from the full_ref prefix, marks current exactly the local
branches named like the current branch, deduplicates by full_ref keeping the
first sanitized occurrence, and returns a list sorted by bucket (current,
Local, Remote, Unknown) then name, containing one entry per surviving
full_ref. -/
theorem C9_list_branches (items : List BranchItem) (current : Option String) :
    (∀ b ∈ gitListBranches items current,
        b.name ≠ "" ∧ b.fullRef ≠ ""
        ∧ (b.current = true ↔ (b.kind = BranchKind.local ∧ current = some b.name))
        ∧ (b.kind = .unknown →
            stripPfx b.fullRef "refs/heads/" = none
            ∧ stripPfx b.fullRef "refs/remotes/" = none)
        ∧ (sanitized items current).find? (fun x => x.fullRef == b.fullRef) = some b)
    ∧ ((gitListBranches items current).map BranchItem.fullRef).Nodup
    ∧ List.Sorted brLe (gitListBranches items current)
    ∧ (∀ x ∈ sanitized items current,
        ∃ b ∈ gitListBranches items current, b.fullRef = x.fullRef) := by
  have hperm : (gitListBranches items current).Perm
      (dedupByRef (sanitized items current) []) :=
    List.perm_insertionSort brLe _
  refine ⟨?_, ?_, ?_, ?_⟩
  · intro b hb
    have hbd : b ∈ dedupByRef (sanitized items current) [] := hperm.mem_iff.mp hb
    obtain ⟨_, hfind⟩ := dedupByRef_mem_find _ [] b hbd
    have hbs : b ∈ sanitized items current := List.mem_of_find?_eq_some hfind
    obtain ⟨it, _, hit⟩ := List.mem_filterMap.mp hbs
    obtain ⟨p1, p2, p3, p4⟩ := sanitizeItem_props current it b hit
    exact ⟨p1, p2, p3, p4, hfind⟩
  · exact ((hperm.map BranchItem.fullRef).symm).nodup (dedupByRef_nodup _ []).1
  · exact List.sorted_insertionSort brLe _
  · intro x hx
    obtain ⟨b, hb1, hb2⟩ := dedupByRef_complete _ [] x hx (by simp)
    exact ⟨b, hperm.mem_iff.mpr hb1, hb2⟩

/-- A backend branch list with a duplicate ref, an empty name, an untrimmed
unknown-kind entry and a bogus current flag on a remote item. -/
def itemsW : List BranchItem :=
  [{ name := "main", fullRef := "refs/heads/main", kind := BranchKind.local, current := false },
   { name := " dev ", fullRef := " refs/heads/dev ", kind := .unknown, current := true },
   { name := "origin/main", fullRef := "refs/remotes/origin/main", kind := .unknown,
     current := true },
   { name := "main", fullRef := "refs/heads/main", kind := BranchKind.local, current := false },
   { name := "", fullRef := "refs/heads/x", kind := BranchKind.local, current := false }]

/-- Closed instance of the C9 theorem on a concrete backend list. -/
theorem C9_witness :
    List.Sorted brLe (gitListBranches itemsW (some "main"))
    ∧ ((gitListBranches itemsW (some "main")).map BranchItem.fullRef).Nodup :=
  ⟨(C9_list_branches itemsW (some "main")).2.2.1,
   (C9_list_branches itemsW (some "main")).2.1⟩

/-- Closed instance of the amended C1 theorem at the diverged environment and
the failing pull exit. -/
theorem C1_witness :
    GitLibGit2.pullFfOnly ffEnvDiverged
      = .error (.backend "git-libgit2" "non-fast-forward; merge or rebase required")
    ∧ GitSystem.pullFfOnly pullExitNonFf
      = .error (.backend "git-system" ("git exited with " ++ "exit status: 128")) :=
  ⟨(C1_pull_nonff_surfaces_backend ffEnvDiverged pullExitNonFf (by decide)
      rfl rfl rfl rfl rfl).2.1 rfl,
   (C1_pull_nonff_surfaces_backend ffEnvDiverged pullExitNonFf (by decide)
      rfl rfl rfl rfl rfl).2.2⟩
